import Mathlib

/-!
Shallow embedding of `replication_handler/components/low_level_binlog_stream_reader_wrapper.py`
(the `LowLevelBinlogStreamReaderWrapper` class): table-filter construction
(`_get_only_tables`), event normalization (`_prepare_event`,
`_get_data_events_from_row_event`) and lazy buffer refill
(`_refill_current_events`), together with theorems settling the spec claims.

Modelling conventions:
* Python strings are Lean `String`s; `s.endswith(t)` is embedded as a
  decidable list-suffix test on the character lists, and the slice
  `s[:-n]` (for `n > 0`) as taking the first `len(s) - n` characters.
* The binlog event-type codes from `pymysqlreplication.constants.BINLOG`
  are naturals (`WRITE_ROWS_EVENT_V2 = 30` etc.); `message_type_map` is a
  partial map on them, and the Python `KeyError` raised by
  `message_type_map[...]` on a missing key is an `Except.error`.
* The `BinLogStreamReader` collaborator is modelled as a queue of pending
  `fetchone` results, each tagged with the `log_file`/`log_pos` the stream
  reports after that fetch; rows are opaque (`String`).
-/

namespace ReplicationHandler

/-- The `self.refresh_table_suffix` constant set in `__init__`. -/
def refresh_table_suffix : String := "_data_pipeline_refresh"

/-- Python `s.endswith(post)`: the characters of `post` are a suffix of those of `s`. -/
def pyEndsWith (s post : String) : Bool :=
  decide (post.data <:+ s.data)

/-- Python slice `s[:-n]` for `n > 0`: all characters of `s` but the last `n`
(the empty string when `n ≥ len(s)`). -/
def pySliceDropLast (s : String) (n : Nat) : String :=
  ⟨s.data.take (s.data.length - n)⟩

/-- The four `data_pipeline.message` classes the module imports. -/
inductive MessageClass
  | CreateMessage
  | UpdateMessage
  | DeleteMessage
  | RefreshMessage
  deriving DecidableEq, Repr

/-- Code `pymysqlreplication.constants.BINLOG.WRITE_ROWS_EVENT_V2`. -/
def WRITE_ROWS_EVENT_V2 : Nat := 30
/-- Code `pymysqlreplication.constants.BINLOG.UPDATE_ROWS_EVENT_V2`. -/
def UPDATE_ROWS_EVENT_V2 : Nat := 31
/-- Code `pymysqlreplication.constants.BINLOG.DELETE_ROWS_EVENT_V2`. -/
def DELETE_ROWS_EVENT_V2 : Nat := 32

/-- The module-level `message_type_map` dict; `none` models a missing key. -/
def message_type_map (event_type : Nat) : Option MessageClass :=
  if event_type = WRITE_ROWS_EVENT_V2 then some .CreateMessage
  else if event_type = UPDATE_ROWS_EVENT_V2 then some .UpdateMessage
  else if event_type = DELETE_ROWS_EVENT_V2 then some .DeleteMessage
  else none

/-- A row payload, opaque to this module. -/
abbrev Row := String

/-- A `pymysqlreplication` row event (`WriteRowsEvent`/`UpdateRowsEvent`/
`DeleteRowsEvent`): the fields `_get_data_events_from_row_event` reads. -/
structure RowsEvent where
  schema : String
  table : String
  event_type : Nat
  rows : List Row
  timestamp : Nat
  deriving DecidableEq, Repr

/-- A `QueryEvent` or `GtidEvent`: an opaque payload plus the `log_pos` /
`log_file` attributes `_prepare_event` mutates in place. -/
structure MetaEvent where
  payload : String
  log_file : String
  log_pos : Nat
  deriving DecidableEq, Repr

/-- A raw event as returned by `self.stream.fetchone()`; `other` stands for
any event class outside the `isinstance` checks of `_prepare_event`. -/
inductive RawEvent
  | meta (e : MetaEvent)
  | rowMutation (e : RowsEvent)
  | other
  deriving DecidableEq, Repr

/-- The `replication_handler.util.misc.DataEvent` value as constructed by
`_get_data_events_from_row_event`. -/
structure DataEvent where
  schema : String
  table : String
  log_pos : Nat
  log_file : String
  row : Row
  timestamp : Nat
  message_type : MessageClass
  deriving DecidableEq, Repr

/-- A buffered unit: either a normalized `DataEvent` or a passed-through
metadata event. -/
inductive BufUnit
  | data (e : DataEvent)
  | meta (e : MetaEvent)
  deriving DecidableEq, Repr

/-- The loop body of `_get_only_tables`: a shadow-suffixed whitelist entry is
skipped (`continue`), any other entry contributes itself and its
`"{0}{1}".format(table_name, suffix)` counterpart, in that order. -/
def expand_whitelist_entry (table_name : String) : List String :=
  if pyEndsWith table_name refresh_table_suffix then []
  else [table_name, table_name ++ refresh_table_suffix]

/-- Function `_get_only_tables`: `none` is Python `None` ("no filter"); the outer
`Option` on the argument models an unset `config.env_config.table_whitelist`
(`if not only_tables` treats `None` and `[]` alike).  The loop appending to
`res_only_table` in order is the `flatMap`. -/
def _get_only_tables (table_whitelist : Option (List String)) : Option (List String) :=
  match table_whitelist with
  | none => none
  | some only_tables =>
    if only_tables.isEmpty then none
    else some (only_tables.flatMap expand_whitelist_entry)

/-- Function `_get_data_events_from_row_event(self, row_event)`, with the stream's
current `log_file`/`log_pos` passed explicitly.  The `message_type_map`
lookup happens before the shadow-suffix check, exactly as in the source, so
a missing key raises (errors) regardless of the table name. -/
def _get_data_events_from_row_event (log_file : String) (log_pos : Nat)
    (row_event : RowsEvent) : Except String (List DataEvent) :=
  match message_type_map row_event.event_type with
  | none => .error "KeyError"
  | some mt =>
    let target_table :=
      if pyEndsWith row_event.table refresh_table_suffix then
        pySliceDropLast row_event.table refresh_table_suffix.data.length
      else row_event.table
    let message_type :=
      if pyEndsWith row_event.table refresh_table_suffix then MessageClass.RefreshMessage
      else mt
    .ok (row_event.rows.map (fun row =>
      { schema := row_event.schema
        table := target_table
        log_pos := log_pos
        log_file := log_file
        row := row
        timestamp := row_event.timestamp
        message_type := message_type }))

/-- Function `_prepare_event(self, event)`, with the stream's current
`log_file`/`log_pos` passed explicitly.  `none` models `event` being
`None`; metadata events get the position stamped on and are returned as a
singleton; row events expand; anything else falls through to `return []`. -/
def _prepare_event (log_file : String) (log_pos : Nat) (event : Option RawEvent) :
    Except String (List BufUnit) :=
  match event with
  | some (.meta e) =>
    .ok [.meta { e with log_pos := log_pos, log_file := log_file }]
  | some (.rowMutation re) =>
    (_get_data_events_from_row_event log_file log_pos re).map (fun l => l.map .data)
  | some .other => .ok []
  | none => .ok []

/-- The `BinLogStreamReader` collaborator: readable current position plus a
queue of pending `fetchone` results, each carrying the position the stream
reports once that event has been consumed. -/
structure BinlogStream where
  log_file : String
  log_pos : Nat
  pending : List (Option RawEvent × String × Nat)
  deriving DecidableEq, Repr

/-- Method `self.stream.fetchone()`: consume the next pending result and update the
stream's readable position; an exhausted queue models a cycle in which the
client yields nothing. -/
def fetchone (s : BinlogStream) : Option RawEvent × BinlogStream :=
  match s.pending with
  | [] => (none, s)
  | (ev, f, p) :: rest => (ev, { log_file := f, log_pos := p, pending := rest })

/-- The wrapper's mutable state: the stream and the `self.current_events`
buffer. -/
structure WrapperState where
  stream : BinlogStream
  current_events : List BufUnit
  deriving DecidableEq, Repr

/-- Function `_refill_current_events(self)`: only when the buffer is empty, fetch one
raw event, normalize it and extend the buffer with the result. -/
def _refill_current_events (s : WrapperState) : Except String WrapperState :=
  if s.current_events.isEmpty then
    let (ev, st) := fetchone s.stream
    (_prepare_event st.log_file st.log_pos ev).map (fun units =>
      { stream := st, current_events := s.current_events ++ units })
  else .ok s

example : pyEndsWith "orders_data_pipeline_refresh" refresh_table_suffix = true := by decide

example : pySliceDropLast "orders_data_pipeline_refresh" refresh_table_suffix.data.length
    = "orders" := by decide

example :
    _get_only_tables (some ["orders"]) =
      some ["orders", "orders_data_pipeline_refresh"] := by decide

/-- C1: For every row-mutation raw event whose table name ends with the
shadow suffix `"_data_pipeline_refresh"` (and whose event type is one of the
three mapped mutation kinds), normalization succeeds and every emitted
`DataEvent` has the suffix-stripped table name and message class
`RefreshMessage`, whatever the original mutation kind was. -/
theorem shadow_table_remap (log_file : String) (log_pos : Nat) (re : RowsEvent)
    (hsuf : pyEndsWith re.table refresh_table_suffix = true)
    (hmt : (message_type_map re.event_type).isSome = true) :
    ∃ l, _get_data_events_from_row_event log_file log_pos re = .ok l ∧
      ∀ e ∈ l, e.table = pySliceDropLast re.table refresh_table_suffix.data.length ∧
        e.message_type = MessageClass.RefreshMessage := by
  rcases hm : message_type_map re.event_type with _ | mt
  · rw [hm] at hmt; simp at hmt
  · refine ⟨_, by rw [_get_data_events_from_row_event, hm], ?_⟩
    intro e he
    simp only [List.mem_map] at he
    obtain ⟨row, _, rfl⟩ := he
    simp [hsuf]

/-- Concrete instance of `shadow_table_remap`: a delete on
`"orders_data_pipeline_refresh"` with one row yields a single event with
table `"orders"` and class `RefreshMessage`. -/
theorem shadow_table_remap_witness :
    ∃ l, _get_data_events_from_row_event "binlog.000001" 400
        { schema := "yelp", table := "orders_data_pipeline_refresh",
          event_type := DELETE_ROWS_EVENT_V2, rows := ["r1"], timestamp := 7 } = .ok l ∧
      ∀ e ∈ l, e.table = pySliceDropLast "orders_data_pipeline_refresh"
          refresh_table_suffix.data.length ∧
        e.message_type = MessageClass.RefreshMessage :=
  shadow_table_remap "binlog.000001" 400
    { schema := "yelp", table := "orders_data_pipeline_refresh",
      event_type := DELETE_ROWS_EVENT_V2, rows := ["r1"], timestamp := 7 }
    (by decide) (by decide)

/-- C2: For every row-mutation raw event whose table does not end with
the shadow suffix and whose event type maps to message class `mt`,
normalization returns exactly one `DataEvent` per row, in row order, each
carrying the raw event's schema and timestamp, the adapter's current log
file and offset (the same for all of them), the corresponding row, and
message class `mt` (insert→Create, update→Update, delete→Delete per
`message_type_map`). -/
theorem row_expansion (log_file : String) (log_pos : Nat) (re : RowsEvent)
    (mt : MessageClass)
    (hns : pyEndsWith re.table refresh_table_suffix = false)
    (hmt : message_type_map re.event_type = some mt) :
    _get_data_events_from_row_event log_file log_pos re =
      .ok (re.rows.map (fun row =>
        { schema := re.schema, table := re.table, log_pos := log_pos,
          log_file := log_file, row := row, timestamp := re.timestamp,
          message_type := mt })) ∧
    ∀ l, _get_data_events_from_row_event log_file log_pos re = .ok l →
      l.length = re.rows.length := by
  constructor
  · rw [_get_data_events_from_row_event, hmt]
    simp [hns]
  · intro l hl
    rw [_get_data_events_from_row_event, hmt] at hl
    simp only [Except.ok.injEq] at hl
    subst hl
    exact List.length_map _ _

/-- Concrete instance of `row_expansion`: an update on `"orders"` with three
rows yields exactly those three events in order. -/
theorem row_expansion_witness :
    _get_data_events_from_row_event "binlog.000001" 400
        { schema := "yelp", table := "orders", event_type := UPDATE_ROWS_EVENT_V2,
          rows := ["r1", "r2", "r3"], timestamp := 7 } =
      .ok (["r1", "r2", "r3"].map (fun row =>
        { schema := "yelp", table := "orders", log_pos := 400,
          log_file := "binlog.000001", row := row, timestamp := 7,
          message_type := MessageClass.UpdateMessage })) :=
  (row_expansion "binlog.000001" 400
    { schema := "yelp", table := "orders", event_type := UPDATE_ROWS_EVENT_V2,
      rows := ["r1", "r2", "r3"], timestamp := 7 }
    MessageClass.UpdateMessage (by decide) (by decide)).1

/-- C4: A row-mutation event whose event type has no entry in
`message_type_map` makes normalization fail (the `KeyError` of the dict
lookup), never return a row-dropping sequence; the lookup precedes the
shadow-suffix branch, so this holds for shadow-suffixed tables too, and the
error propagates through `_prepare_event`. -/
theorem unmapped_event_type_errors (log_file : String) (log_pos : Nat) (re : RowsEvent)
    (h : message_type_map re.event_type = none) :
    _get_data_events_from_row_event log_file log_pos re = .error "KeyError" ∧
    _prepare_event log_file log_pos (some (.rowMutation re)) = .error "KeyError" := by
  have h1 : _get_data_events_from_row_event log_file log_pos re = .error "KeyError" := by
    rw [_get_data_events_from_row_event, h]
  exact ⟨h1, by rw [_prepare_event, h1]; rfl⟩

/-- Concrete instance of `unmapped_event_type_errors`: a v1 write-rows event
(type code 23, absent from the map) on a shadow-suffixed table errors. -/
theorem unmapped_event_type_errors_witness :
    _get_data_events_from_row_event "binlog.000001" 400
        { schema := "yelp", table := "orders_data_pipeline_refresh",
          event_type := 23, rows := ["r1"], timestamp := 7 } = .error "KeyError" ∧
    _prepare_event "binlog.000001" 400
        (some (.rowMutation
          { schema := "yelp", table := "orders_data_pipeline_refresh",
            event_type := 23, rows := ["r1"], timestamp := 7 })) = .error "KeyError" :=
  unmapped_event_type_errors "binlog.000001" 400
    { schema := "yelp", table := "orders_data_pipeline_refresh",
      event_type := 23, rows := ["r1"], timestamp := 7 } (by decide)

/-- C9: A metadata raw event (schema-change `QueryEvent` or transaction
marker `GtidEvent`) normalizes to a single-element sequence containing the
event stamped with the adapter's current log file and offset, its payload
unchanged. -/
theorem metadata_passthrough (log_file : String) (log_pos : Nat) (e : MetaEvent) :
    _prepare_event log_file log_pos (some (.meta e)) =
      .ok [.meta { payload := e.payload, log_file := log_file, log_pos := log_pos }] := by
  rfl

/-- C3 counterexample: The suffix is stripped only once, so an insert on
the table `"a_data_pipeline_refresh_data_pipeline_refresh"` produces a
`DataEvent` whose table `"a_data_pipeline_refresh"` still ends with the
shadow suffix, refuting "the output table never ends with the suffix, for
all possible input table names". -/
theorem shadow_suffix_survives_double_suffix :
    _get_data_events_from_row_event "binlog.000001" 400
        { schema := "yelp", table := "a_data_pipeline_refresh_data_pipeline_refresh",
          event_type := WRITE_ROWS_EVENT_V2, rows := ["r1"], timestamp := 7 } =
      .ok [{ schema := "yelp", table := "a_data_pipeline_refresh", log_pos := 400,
             log_file := "binlog.000001", row := "r1", timestamp := 7,
             message_type := MessageClass.RefreshMessage }] ∧
    pyEndsWith "a_data_pipeline_refresh" refresh_table_suffix = true := by
  constructor
  · rfl
  · decide

/-- C3 amended: Every `DataEvent` produced from a row-mutation event has
a table that does not end with the shadow suffix, provided the input table,
if shadow-suffixed, does not remain shadow-suffixed after one suffix is
stripped (a doubly-suffixed name like the counterexample's violates this). -/
theorem output_table_not_shadow_suffixed (log_file : String) (log_pos : Nat)
    (re : RowsEvent) (l : List DataEvent)
    (hstrip : pyEndsWith re.table refresh_table_suffix = true →
      pyEndsWith (pySliceDropLast re.table refresh_table_suffix.data.length)
        refresh_table_suffix = false)
    (h : _get_data_events_from_row_event log_file log_pos re = .ok l) :
    ∀ e ∈ l, pyEndsWith e.table refresh_table_suffix = false := by
  rcases hm : message_type_map re.event_type with _ | mt
  · rw [_get_data_events_from_row_event, hm] at h
    exact absurd h (by simp)
  · rw [_get_data_events_from_row_event, hm] at h
    simp only [Except.ok.injEq] at h
    subst h
    intro e he
    simp only [List.mem_map] at he
    obtain ⟨row, _, rfl⟩ := he
    by_cases hsuf : pyEndsWith re.table refresh_table_suffix = true
    · simpa [hsuf] using hstrip hsuf
    · simp only [Bool.not_eq_true] at hsuf
      simp [hsuf]

/-- Concrete instance of `output_table_not_shadow_suffixed`: an insert on the
plain table `"orders"` yields only non-shadow-suffixed output tables. -/
theorem output_table_not_shadow_suffixed_witness :
    pyEndsWith
      (DataEvent.table
        { schema := "yelp", table := "orders", log_pos := 400,
          log_file := "binlog.000001", row := "r1", timestamp := 7,
          message_type := MessageClass.CreateMessage })
      refresh_table_suffix = false :=
  output_table_not_shadow_suffixed "binlog.000001" 400
    { schema := "yelp", table := "orders", event_type := WRITE_ROWS_EVENT_V2,
      rows := ["r1"], timestamp := 7 }
    [{ schema := "yelp", table := "orders", log_pos := 400,
       log_file := "binlog.000001", row := "r1", timestamp := 7,
       message_type := MessageClass.CreateMessage }]
    (by decide) (by rfl) _ (List.mem_singleton.mpr rfl)

/-- C5: `_refill_current_events` pulls from the stream only when the
buffer is empty: with a non-empty buffer the whole state (stream included)
is returned unchanged and no fetch happens; with an empty buffer exactly one
`fetchone` is performed, its result normalized, and the resulting units
(possibly none) become the buffer contents, in order. -/
theorem refill_pulls_only_when_empty (s : WrapperState) :
    (s.current_events ≠ [] → _refill_current_events s = .ok s) ∧
    (s.current_events = [] →
      _refill_current_events s =
        (_prepare_event (fetchone s.stream).2.log_file (fetchone s.stream).2.log_pos
            (fetchone s.stream).1).map
          (fun units => { stream := (fetchone s.stream).2, current_events := units })) := by
  constructor
  · intro h
    rw [_refill_current_events]
    simp [List.isEmpty_iff, h]
  · intro h
    rw [_refill_current_events]
    rcases hf : fetchone s.stream with ⟨ev, st⟩
    simp [List.isEmpty_iff, h, hf]

/-- Concrete instance of `refill_pulls_only_when_empty`: a refill with one
buffered unit leaves the state untouched; a refill with an empty buffer
consumes the pending metadata event and buffers its stamped form. -/
theorem refill_pulls_only_when_empty_witness :
    _refill_current_events
        { stream := { log_file := "binlog.000001", log_pos := 4, pending := [(some .other, "binlog.000001", 8)] },
          current_events := [.meta { payload := "BEGIN", log_file := "binlog.000001", log_pos := 4 }] } =
      .ok { stream := { log_file := "binlog.000001", log_pos := 4, pending := [(some .other, "binlog.000001", 8)] },
            current_events := [.meta { payload := "BEGIN", log_file := "binlog.000001", log_pos := 4 }] } ∧
    _refill_current_events
        { stream := { log_file := "binlog.000001", log_pos := 4,
                      pending := [(some (.meta { payload := "BEGIN", log_file := "x", log_pos := 0 }), "binlog.000001", 8)] },
          current_events := [] } =
      .ok { stream := { log_file := "binlog.000001", log_pos := 8, pending := [] },
            current_events := [.meta { payload := "BEGIN", log_file := "binlog.000001", log_pos := 8 }] } := by
  constructor
  · exact (refill_pulls_only_when_empty _).1 (by decide)
  · rw [(refill_pulls_only_when_empty _).2 rfl]
    rfl

/-- C10: A row-mutation event with an empty `rows` list normalizes to the
empty sequence (when its event type is mapped), so a refill cycle pulling
such an event consumes it from the stream yet leaves the buffer empty. -/
theorem empty_rows_refill_appends_nothing (log_file : String) (log_pos : Nat)
    (re : RowsEvent) (f0 : String) (p0 : Nat)
    (rest : List (Option RawEvent × String × Nat))
    (hrows : re.rows = [])
    (hmt : (message_type_map re.event_type).isSome = true) :
    _get_data_events_from_row_event log_file log_pos re = .ok [] ∧
    _refill_current_events
        { stream := { log_file := f0, log_pos := p0,
                      pending := (some (.rowMutation re), log_file, log_pos) :: rest },
          current_events := [] } =
      .ok { stream := { log_file := log_file, log_pos := log_pos, pending := rest },
            current_events := [] } := by
  rcases hm : message_type_map re.event_type with _ | mt
  · rw [hm] at hmt
    simp at hmt
  · have h1 : _get_data_events_from_row_event log_file log_pos re = .ok [] := by
      rw [_get_data_events_from_row_event, hm, hrows]
      rfl
    refine ⟨h1, ?_⟩
    rw [_refill_current_events]
    simp only [fetchone, _prepare_event, h1]
    rfl

/-- Concrete instance of `empty_rows_refill_appends_nothing`: an update event
on `"orders"` carrying zero rows is consumed and contributes no units. -/
theorem empty_rows_refill_appends_nothing_witness :
    _get_data_events_from_row_event "binlog.000001" 400
        { schema := "yelp", table := "orders", event_type := UPDATE_ROWS_EVENT_V2,
          rows := [], timestamp := 7 } = .ok [] ∧
    _refill_current_events
        { stream := { log_file := "binlog.000001", log_pos := 4,
                      pending := [(some (.rowMutation
                        { schema := "yelp", table := "orders",
                          event_type := UPDATE_ROWS_EVENT_V2, rows := [], timestamp := 7 }),
                        "binlog.000001", 400)] },
          current_events := [] } =
      .ok { stream := { log_file := "binlog.000001", log_pos := 400, pending := [] },
            current_events := [] } :=
  empty_rows_refill_appends_nothing "binlog.000001" 400
    { schema := "yelp", table := "orders", event_type := UPDATE_ROWS_EVENT_V2,
      rows := [], timestamp := 7 } "binlog.000001" 4 [] rfl (by decide)

theorem pyEndsWith_append (a b : String) : pyEndsWith (a ++ b) b = true := by
  simp [pyEndsWith, String.data_append]

theorem str_ne_append_suffix (a : String) : a ≠ a ++ refresh_table_suffix := by
  intro h
  have hlen := congrArg (fun s => s.data.length) h
  simp only [String.data_append, List.length_append] at hlen
  have hpos : 0 < refresh_table_suffix.data.length := by decide
  omega

theorem str_append_right_cancel {a b c : String} (h : a ++ c = b ++ c) : a = b := by
  have hd : a.data ++ c.data = b.data ++ c.data := by
    rw [← String.data_append, ← String.data_append, h]
  have hab : a.data = b.data := List.append_cancel_right hd
  cases a
  cases b
  cases hab
  rfl

/-- C6: For a non-empty whitelist none of whose entries is
shadow-suffixed, the computed filter exists, has exactly twice as many
entries, and contains both `t` and `t ++ "_data_pipeline_refresh"` for each
whitelisted `t`. -/
theorem filter_expansion (W : List String) (hne : W ≠ [])
    (hns : ∀ t ∈ W, pyEndsWith t refresh_table_suffix = false) :
    ∃ l, _get_only_tables (some W) = some l ∧ l.length = 2 * W.length ∧
      ∀ t ∈ W, t ∈ l ∧ t ++ refresh_table_suffix ∈ l := by
  have hE : W.isEmpty = false := by
    cases W with
    | nil => exact absurd rfl hne
    | cons t W => rfl
  refine ⟨W.flatMap expand_whitelist_entry, ?_, ?_, ?_⟩
  · rw [_get_only_tables, hE]
    rfl
  · clear hne hE
    induction W with
    | nil => rfl
    | cons t W ih =>
      have ht := hns t (List.mem_cons_self t W)
      rw [List.flatMap_cons, List.length_append, expand_whitelist_entry, ht,
        ih (fun u hu => hns u (List.mem_cons_of_mem t hu))]
      simp only [if_neg Bool.false_ne_true, List.length_cons, List.length_nil]
      omega
  · intro t ht
    have hexp : expand_whitelist_entry t = [t, t ++ refresh_table_suffix] := by
      rw [expand_whitelist_entry, hns t ht]
      rfl
    constructor
    · exact List.mem_flatMap.mpr ⟨t, ht, by rw [hexp]; exact List.mem_cons_self _ _⟩
    · exact List.mem_flatMap.mpr ⟨t, ht, by rw [hexp]; simp⟩

/-- Concrete instance of `filter_expansion` on the two-table whitelist
`["orders", "users"]`. -/
theorem filter_expansion_witness :
    ∃ l, _get_only_tables (some ["orders", "users"]) = some l ∧
      l.length = 2 * (["orders", "users"] : List String).length ∧
      ∀ t ∈ (["orders", "users"] : List String),
        t ∈ l ∧ t ++ refresh_table_suffix ∈ l :=
  filter_expansion ["orders", "users"] (by decide) (by decide)

/-- C7 counterexample: The filter is a plain list, not a set: the
whitelist `["orders", "orders"]` (a repeated table name) yields a filter
with duplicate entries, refuting "no duplicates for every whitelist input". -/
theorem filter_duplicates_on_repeated_whitelist :
    _get_only_tables (some ["orders", "orders"]) =
      some ["orders", "orders_data_pipeline_refresh",
            "orders", "orders_data_pipeline_refresh"] ∧
    ¬ (["orders", "orders_data_pipeline_refresh",
        "orders", "orders_data_pipeline_refresh"] : List String).Nodup := by
  constructor
  · rfl
  · decide

theorem nodup_flatMap_expand (W : List String) (h : W.Nodup) :
    (W.flatMap expand_whitelist_entry).Nodup := by
  induction W with
  | nil => simp
  | cons t W ih =>
    rw [List.flatMap_cons]
    rcases List.nodup_cons.mp h with ⟨htW, hW⟩
    refine List.Nodup.append ?_ (ih hW) ?_
    · rw [expand_whitelist_entry]
      by_cases hsuf : pyEndsWith t refresh_table_suffix = true
      · rw [if_pos hsuf]
        exact List.nodup_nil
      · rw [if_neg hsuf]
        simp [str_ne_append_suffix t]
    · intro x hx hx2
      rw [expand_whitelist_entry] at hx
      by_cases hsuf : pyEndsWith t refresh_table_suffix = true
      · rw [if_pos hsuf] at hx
        exact absurd hx (List.not_mem_nil x)
      · rw [if_neg hsuf] at hx
        obtain ⟨u, huW, hxu⟩ := List.mem_flatMap.mp hx2
        rw [expand_whitelist_entry] at hxu
        by_cases hsufu : pyEndsWith u refresh_table_suffix = true
        · rw [if_pos hsufu] at hxu
          exact absurd hxu (List.not_mem_nil x)
        · rw [if_neg hsufu] at hxu
          simp only [List.mem_cons, List.mem_singleton, List.not_mem_nil, or_false] at hx hxu
          rcases hx with rfl | rfl
          · rcases hxu with rfl | rfl
            · exact htW huW
            · exact hsuf (pyEndsWith_append u refresh_table_suffix)
          · rcases hxu with h1 | h1
            · exact hsufu (h1 ▸ pyEndsWith_append t refresh_table_suffix)
            · exact htW (str_append_right_cancel h1 ▸ huW)

/-- C7 amended: The computed filter has no duplicate entries provided
the whitelist itself has none (with a repeated whitelist entry the filter, a
plain list, repeats entries, as the counterexample shows). -/
theorem filter_nodup_of_nodup_whitelist (W : List String) (h : W.Nodup) :
    ∀ l, _get_only_tables (some W) = some l → l.Nodup := by
  intro l hl
  rw [_get_only_tables] at hl
  cases hE : W.isEmpty with
  | true =>
    rw [hE] at hl
    exact absurd hl (by simp)
  | false =>
    rw [hE] at hl
    simp only [Bool.false_eq_true, if_false, Option.some.injEq] at hl
    exact hl ▸ nodup_flatMap_expand W h

/-- Concrete instance of `filter_nodup_of_nodup_whitelist` on the
duplicate-free whitelist `["orders", "users"]`. -/
theorem filter_nodup_witness :
    (["orders", "orders_data_pipeline_refresh",
      "users", "users_data_pipeline_refresh"] : List String).Nodup :=
  filter_nodup_of_nodup_whitelist ["orders", "users"] (by decide)
    ["orders", "orders_data_pipeline_refresh",
     "users", "users_data_pipeline_refresh"] (by rfl)

/-- C8: The filter is the absent value exactly when the whitelist is
unset or empty; a non-empty whitelist all of whose entries are already
shadow-suffixed yields `some []` (deliver nothing), not the absent value —
each such entry is skipped without error. -/
theorem no_filter_iff_empty_whitelist (W : Option (List String)) :
    (_get_only_tables W = none ↔ W = none ∨ W = some []) ∧
    (∀ ts, W = some ts → ts ≠ [] →
      (∀ t ∈ ts, pyEndsWith t refresh_table_suffix = true) →
      _get_only_tables W = some []) := by
  constructor
  · cases W with
    | none => simp [_get_only_tables]
    | some ts =>
      cases ts with
      | nil => simp [_get_only_tables]
      | cons t ts => simp [_get_only_tables]
  · rintro ts rfl hne hall
    have hE : ts.isEmpty = false := by
      cases ts with
      | nil => exact absurd rfl hne
      | cons t ts => rfl
    rw [_get_only_tables, hE]
    simp only [Bool.false_eq_true, if_false, Option.some.injEq]
    induction ts with
    | nil => rfl
    | cons t ts ih =>
      rw [List.flatMap_cons, expand_whitelist_entry, hall t (List.mem_cons_self t ts),
        if_pos rfl, List.nil_append]
      cases ts with
      | nil => rfl
      | cons u ts =>
        exact ih (by intro hc; cases hc) (fun v hv => hall v (List.mem_cons_of_mem t hv)) rfl

/-- Concrete instance of `no_filter_iff_empty_whitelist`: an unset whitelist
gives no filter, while the whitelist `["orders_data_pipeline_refresh"]`
gives the empty filter. -/
theorem no_filter_iff_empty_whitelist_witness :
    _get_only_tables none = none ∧
    _get_only_tables (some ["orders_data_pipeline_refresh"]) = some [] := by
  constructor
  · exact (no_filter_iff_empty_whitelist none).1.mpr (Or.inl rfl)
  · exact (no_filter_iff_empty_whitelist (some ["orders_data_pipeline_refresh"])).2
      ["orders_data_pipeline_refresh"] rfl (by decide) (by decide)

end ReplicationHandler
